import Mathlib

/-
Verification of the picokeypad Simon-Says game (src/simon-says.py).

Shallow embedding conventions:
* Durations are modelled in milliseconds as naturals (the Python source uses
  seconds as floats: 0.420 s becomes 420, 1.5 s becomes 1500, 0.250 s becomes
  250, 0.05 s becomes 50, 3.0 s becomes 3000).
* Hardware side effects (buzzer PWM commands, keypad illumination, sleeps)
  are reified as an `Effect` trace.
* Reads of `keypad.get_button_states()` are modelled by consuming successive
  elements of an explicit list of polled bitmasks.
-/

namespace SimonSays

/-- FAILURE_TONE constant (line 17): 100 Hz. -/
def FAILURE_TONE : Nat := 100

/-- SEQUENCE_DELAY constant (line 18): 0.8 s, in milliseconds. -/
def SEQUENCE_DELAY : Nat := 800

/-- GUESS_TIMEOUT constant (line 19): 3.0 s, in milliseconds. -/
def GUESS_TIMEOUT : Nat := 3000

/-- DEBOUNCE constant (line 20): 0.250 s, in milliseconds. -/
def DEBOUNCE : Nat := 250

/-- SEQUENCE_LENGTH lookup table (lines 22-27). Keys outside 1..4 do not
occur in the Python dict; they are mapped to 0 here. -/
def SEQUENCE_LENGTH : Nat → Nat
  | 1 => 8
  | 2 => 14
  | 3 => 20
  | 4 => 31
  | _ => 0

/-- One entry of the SIMON_BUTTONS table: pads, pixels, RGB color and tone
frequency (`none` models Python `None`, i.e. silence). -/
structure ButtonDefinition where
  pads : List Nat
  pixels : List Nat
  R : Nat
  G : Nat
  B : Nat
  freq : Option Nat
deriving DecidableEq, Repr

/-- SIMON_BUTTONS table (lines 28-33). Keys outside 1..4 do not occur in the
Python dict; they are mapped to an empty definition here. -/
def SIMON_BUTTONS : Nat → ButtonDefinition
  | 1 => ⟨[0, 1, 4, 5], [0, 1, 4, 5], 0xFF, 0xFF, 0x00, some 415⟩
  | 2 => ⟨[2, 3, 6, 7], [2, 3, 6, 7], 0x00, 0x00, 0xFF, some 252⟩
  | 3 => ⟨[8, 9, 12, 13], [8, 9, 12, 13], 0xFF, 0x00, 0x00, some 209⟩
  | 4 => ⟨[10, 11, 14, 15], [10, 11, 14, 15], 0x00, 0xFF, 0x00, some 310⟩
  | _ => ⟨[], [], 0, 0, 0, none⟩

/-- The key ids of the SIMON_BUTTONS dict in iteration order. -/
def buttonIds : List Nat := [1, 2, 3, 4]

/-- Reified hardware side effects: buzzer duty cycle, buzzer frequency
(`none` models passing Python `None`), sleeps (ms), and keypad commands. -/
inductive Effect where
  | duty : Nat → Effect
  | setFreq : Option Nat → Effect
  | sleep : Nat → Effect
  | illuminate : Nat → Nat → Nat → Nat → Effect
  | clear : Effect
  | commit : Effect
deriving DecidableEq, Repr

/-- play_tone (lines 49-53): enables the buzzer at duty 1000, sets the
frequency to the given argument, sleeps for the duration, disables the
buzzer. The frequency argument is Optional because `indicate_button` guards
a possible `None` stored in the button table. -/
def play_tone (frequency : Option Nat) (duration : Nat) : List Effect :=
  [Effect.duty 1000, Effect.setFreq frequency, Effect.sleep duration,
   Effect.duty 0]

/-- indicate_button (lines 94-109): clear, illuminate the button's pixels in
its color, commit, then either sleep silently (freq is None) or play the
button's tone, then clear and commit again. -/
def indicate_button (button : ButtonDefinition) (duration : Nat) :
    List Effect :=
  [Effect.clear] ++
  button.pixels.map (fun p => Effect.illuminate p button.R button.G button.B)
  ++ [Effect.commit] ++
  (match button.freq with
   | none => [Effect.sleep duration]
   | some f => play_tone (some f) duration) ++
  [Effect.clear, Effect.commit]

/-- The duration selection of show_sequence (lines 113-118), computed once
per call from the `step` argument. -/
def cueDuration (step : Nat) : Nat :=
  if step ≤ 5 then 420 else if step ≤ 13 then 320 else 220

/-- show_sequence (lines 111-123), per replayed entry: entry `b` contributes
a 50 ms gap followed by the cue of the button at sequence index `b`, played
for the single duration computed from `step`. The full effect trace of the
call is the concatenation of these entries. -/
def show_sequence_entries (sequence : List Nat) (step : Nat) :
    List (List Effect) :=
  let duration := cueDuration step
  (List.range step).map
    (fun b =>
      Effect.sleep 50 :: indicate_button (SIMON_BUTTONS (sequence.getD b 0))
        duration)

/-- show_sequence (lines 111-123) as a flat effect trace. -/
def show_sequence (sequence : List Nat) (step : Nat) : List Effect :=
  (show_sequence_entries sequence step).flatten

/-- Whether `mask` is exactly the single bit of pad `p`
(the test `current_buttons == (1 << pad)` on line 134). -/
def single_pad_mask (mask : Nat) (p : Nat) : Bool := mask == 2 ^ p

/-- The inner pad loop of get_button_press (lines 133-136) for one button:
does some pad of the button match the mask exactly? -/
def matches_button (mask : Nat) (id : Nat) : Bool :=
  (SIMON_BUTTONS id).pads.any (single_pad_mask mask)

/-- get_button_press (lines 127-137), returned value: the first button id in
dict order some pad of which equals the mask exactly, else none. -/
def pressed_button (mask : Nat) : Option Nat :=
  buttonIds.find? (matches_button mask)

/-- get_button_press (lines 127-137), side effects: a recognized press
echoes the button's cue for the DEBOUNCE duration; otherwise nothing. -/
def press_effects (mask : Nat) : List Effect :=
  match pressed_button mask with
  | some id => indicate_button (SIMON_BUTTONS id) DEBOUNCE
  | none => []

/-- get_button_press (lines 127-137): returned button id and effect trace. -/
def get_button_press (mask : Nat) : Option Nat × List Effect :=
  (pressed_button mask, press_effects mask)

/-- game_lost (lines 139-150), effect trace before the final infinite idle
loop: clear, illuminate the pixels of SIMON_BUTTONS[sequence[step]] in that
button's color, commit, play the failure tone for 1.5 s. The argument is
used as an INDEX into the sequence. -/
def game_lost (sequence : List Nat) (step : Nat) : List Effect :=
  [Effect.clear] ++
  (SIMON_BUTTONS (sequence.getD step 0)).pixels.map
    (fun p =>
      Effect.illuminate p (SIMON_BUTTONS (sequence.getD step 0)).R
        (SIMON_BUTTONS (sequence.getD step 0)).G
        (SIMON_BUTTONS (sequence.getD step 0)).B) ++
  [Effect.commit] ++ play_tone (some FAILURE_TONE) 1500

/-- The call site `game_lost(sequence[step])` on line 207 of the main loop:
the VALUE at the failing index `i` (a button id in 1..4) is passed as the
`step` argument of game_lost. -/
def lost_call_site (sequence : List Nat) (i : Nat) : List Effect :=
  game_lost sequence (sequence.getD i 0)

/-- The wrap-around increment of choose_skill_level (lines 64-65):
`skill_level = skill_level if skill_level < 5 else 1` after `+= 1`. -/
def wrapInc (level : Nat) : Nat := if level + 1 < 5 then level + 1 else 1

/-- The polling loop of choose_skill_level (lines 61-73) over an explicit
list of bitmask reads. Each iteration consumes TWO reads: the `while`
condition reads once (line 61) and the `if` reads again (line 63). Returns
`none` when the read list is exhausted with the loop still running. -/
def chooseLoop : Nat → List Nat → Option Nat
  | _, [] => none
  | level, s :: rest =>
    if s = 32768 then some level
    else
      match rest with
      | [] => none
      | s2 :: rest2 =>
        chooseLoop (if s2 = 16384 then wrapInc level else level) rest2

/-- choose_skill_level (lines 56-74): default level 1, loop until a read of
32768 (key 15, start) returns the current level; a read of 16384 (key 14)
at the `if` increments the level with wrap-around. -/
def choose_skill_level (reads : List Nat) : Option Nat :=
  chooseLoop 1 reads

/-- Models random.randint(a, b) from the Python standard library: a uniform
draw in the inclusive range [a, b], here applied to one raw draw `r` of the
seeded generator. -/
def randint (a b : Nat) (r : Nat) : Nat := a + r % (b - a + 1)

/-- new_game (lines 76-92): after seeding, builds the list
`[random.randint(1,4) for i in range(SEQUENCE_LENGTH[skill_level])]`. The
seeded generator's successive raw draws are abstracted as `rand`. -/
def new_game (skill_level : Nat) (rand : Nat → Nat) : List Nat :=
  (List.range (SEQUENCE_LENGTH skill_level)).map (fun i => randint 1 4 (rand i))

/-- The guess polling loop of the main loop (lines 202-205): repeatedly call
get_button_press until a press is returned or the timeout window closes.
`polls` is the list of bitmask reads obtained inside the window; the result
is the first recognized press among them, else none. -/
def poll_guess (polls : List Nat) : Option Nat :=
  polls.findSome? pressed_button

/-- The mismatch test of the main loop (line 206):
`not guess == SIMON_BUTTONS[sequence[step]]`, i.e. the round is lost exactly
when the guess differs from the expected button (a missing guess included). -/
def guess_lost (guess : Option Nat) (expected : Nat) : Bool :=
  !(guess.map SIMON_BUTTONS == some (SIMON_BUTTONS expected))

/-- The control state of the main loop (lines 196-216): playing at a given
current step, or in one of the two terminal states. -/
inductive GamePhase where
  | playing : Nat → GamePhase
  | won : GamePhase
  | lost : GamePhase
deriving DecidableEq, Repr

/-- The advance step of the main loop (lines 210-213): after a flawless
round, `current_step += 1`; if the new value exceeds the sequence length,
game_won fires, otherwise the next round plays at the incremented step. -/
def advance (seqLen : Nat) (current_step : Nat) : GamePhase :=
  let s := current_step + 1
  if seqLen < s then GamePhase.won else GamePhase.playing s

/-- The reachable control states of the main loop for a sequence of length
`len`: the game starts playing at step 1 (line 193); a flawless round
advances; any mismatch moves to lost. -/
inductive Reachable (len : Nat) : GamePhase → Prop
  | init : Reachable len (GamePhase.playing 1)
  | flawless {s : Nat} :
      Reachable len (GamePhase.playing s) → Reachable len (advance len s)
  | loss {s : Nat} :
      Reachable len (GamePhase.playing s) → Reachable len GamePhase.lost

/-! ## Helper lemmas -/

/-- Each iteration of the selector loop whose two reads are a non-start read
followed by a read of the increase bitmask increments the level once. -/
theorem chooseLoop_press_iters (s1 s2 : Nat) (h1 : s1 ≠ 32768)
    (h2 : s2 = 16384) :
    ∀ (n level : Nat),
      chooseLoop level ((List.replicate n [s1, s2]).flatten ++ [32768]) =
        some (wrapInc^[n] level) := by
  intro n
  induction n with
  | zero => intro level; simp [chooseLoop]
  | succ m ih =>
    intro level
    subst h2
    have hshape : (List.replicate (m + 1) [s1, 16384]).flatten ++ [32768] =
        s1 :: 16384 :: ((List.replicate m [s1, 16384]).flatten ++ [32768]) := by
      simp [List.replicate_succ]
    rw [hshape]
    have hstep : chooseLoop level
        (s1 :: 16384 :: ((List.replicate m [s1, 16384]).flatten ++ [32768])) =
        chooseLoop (wrapInc level)
          ((List.replicate m [s1, 16384]).flatten ++ [32768]) := by
      simp [chooseLoop, h1]
    rw [hstep, ih (wrapInc level), Function.iterate_succ_apply]

/-- A bitmask that is not the single bit of any pad position below 16 is not
recognized as a press. -/
theorem pressed_button_eq_none_of_not_single (mask : Nat)
    (h : ∀ p < 16, mask ≠ 2 ^ p) : pressed_button mask = none := by
  have key : ∀ p, p < 16 → (mask == 2 ^ p) = false := by
    intro p hp
    simp only [beq_eq_false_iff_ne, ne_eq]
    exact h p hp
  have m1 : matches_button mask 1 = false := by
    simp only [matches_button, SIMON_BUTTONS, single_pad_mask, List.any_cons,
      List.any_nil, key 0 (by norm_num), key 1 (by norm_num),
      key 4 (by norm_num), key 5 (by norm_num), Bool.or_self, Bool.or_false]
  have m2 : matches_button mask 2 = false := by
    simp only [matches_button, SIMON_BUTTONS, single_pad_mask, List.any_cons,
      List.any_nil, key 2 (by norm_num), key 3 (by norm_num),
      key 6 (by norm_num), key 7 (by norm_num), Bool.or_self, Bool.or_false]
  have m3 : matches_button mask 3 = false := by
    simp only [matches_button, SIMON_BUTTONS, single_pad_mask, List.any_cons,
      List.any_nil, key 8 (by norm_num), key 9 (by norm_num),
      key 12 (by norm_num), key 13 (by norm_num), Bool.or_self, Bool.or_false]
  have m4 : matches_button mask 4 = false := by
    simp only [matches_button, SIMON_BUTTONS, single_pad_mask, List.any_cons,
      List.any_nil, key 10 (by norm_num), key 11 (by norm_num),
      key 14 (by norm_num), key 15 (by norm_num), Bool.or_self, Bool.or_false]
  simp [pressed_button, buttonIds, List.find?, m1, m2, m3, m4]

/-! ## Claim theorems -/

/-- C10: the pads of the four SIMON_BUTTONS are pairwise disjoint and cover
exactly the key positions 0..15; every exact single-key bitmask is
recognized by get_button_press as exactly one logical button, and the menu
keys at positions 14 and 15 act as button 4. -/
theorem C10_pads_partition :
    (∀ i ∈ buttonIds, ∀ j ∈ buttonIds, i ≠ j →
        ∀ p ∈ (SIMON_BUTTONS i).pads, p ∉ (SIMON_BUTTONS j).pads) ∧
    (∀ p < 16, p ∈ (buttonIds.map (fun i => (SIMON_BUTTONS i).pads)).flatten) ∧
    (∀ p ∈ (buttonIds.map (fun i => (SIMON_BUTTONS i).pads)).flatten,
        p < 16) ∧
    (∀ p < 16, (buttonIds.filter (matches_button (2 ^ p))).length = 1) ∧
    (∀ p < 16, ((get_button_press (2 ^ p)).1).isSome) ∧
    (get_button_press (2 ^ 14)).1 = some 4 ∧
    (get_button_press (2 ^ 15)).1 = some 4 := by
  refine ⟨by decide, by decide, by decide, by decide, by decide, ?_, ?_⟩ <;>
    decide

/-- C10 witness: instantiate the quantified parts at concrete inputs. -/
theorem C10_pads_partition_witness :
    (0 : Nat) ∉ (SIMON_BUTTONS 2).pads ∧
    ((get_button_press (2 ^ 0)).1).isSome :=
  ⟨C10_pads_partition.1 1 (by decide) 2 (by decide) (by decide) 0 (by decide),
   C10_pads_partition.2.2.2.2.1 0 (by decide)⟩

/-- C1: evaluation of the loss path at a concrete failing input. With
sequence [1,2,3,4,3,2,1,4] and a mismatch at index 0, the expected button is
SIMON_BUTTONS 1 (yellow, pixels 0,1,4,5), but the call site passes the VALUE
sequence[0] = 1 as an index, so game_lost illuminates
SIMON_BUTTONS[sequence[1]] = SIMON_BUTTONS 2 (blue, pixels 2,3,6,7) instead;
the failure tone of 100 Hz for 1.5 s does follow. -/
theorem C1_lost_indicates_wrong_button :
    lost_call_site [1, 2, 3, 4, 3, 2, 1, 4] 0 =
      game_lost [1, 2, 3, 4, 3, 2, 1, 4] 1 ∧
    Effect.illuminate 2 0x00 0x00 0xFF ∈
      lost_call_site [1, 2, 3, 4, 3, 2, 1, 4] 0 ∧
    Effect.illuminate 0 0xFF 0xFF 0x00 ∉
      lost_call_site [1, 2, 3, 4, 3, 2, 1, 4] 0 ∧
    Effect.illuminate 0 0xFF 0xFF 0x00 ∈
      game_lost [1, 2, 3, 4, 3, 2, 1, 4] 0 ∧
    Effect.setFreq (some FAILURE_TONE) ∈
      lost_call_site [1, 2, 3, 4, 3, 2, 1, 4] 0 ∧
    Effect.sleep 1500 ∈ lost_call_site [1, 2, 3, 4, 3, 2, 1, 4] 0 := by
  decide

/-- C2 counterexample: in show_sequence with step 6, the entry at index 0
(absolute position 1) is cued for 320 ms (the bucket of step 6), not the
420 ms the claim assigns to position 1. -/
theorem C2_counterexample :
    ¬ ((show_sequence_entries [1, 1, 1, 1, 1, 1] 6).getD 0 [] =
        Effect.sleep 50 ::
          indicate_button (SIMON_BUTTONS ([1, 1, 1, 1, 1, 1].getD 0 0))
            (cueDuration (0 + 1))) := by
  decide

/-- C2 (amended): every entry replayed by a single show_sequence call uses
the one duration computed from the call's step argument, and the duration
table has the stated boundary behavior (420 ms up to 5, 320 ms for 6..13,
220 ms from 14 on). -/
theorem C2_uniform_duration :
    (∀ (sequence : List Nat) (step i : Nat), i < step →
        (show_sequence_entries sequence step).getD i [] =
          Effect.sleep 50 ::
            indicate_button (SIMON_BUTTONS (sequence.getD i 0))
              (cueDuration step)) ∧
    cueDuration 5 = 420 ∧ cueDuration 6 = 320 ∧
    cueDuration 13 = 320 ∧ cueDuration 14 = 220 := by
  refine ⟨?_, by decide, by decide, by decide, by decide⟩
  intro sequence step i hi
  simp [show_sequence_entries, List.getD_eq_getElem?_getD,
    List.getElem?_range hi]

/-- C2 witness: the uniform-duration property at a concrete call. -/
theorem C2_uniform_duration_witness :
    (0 : Nat) < 3 ∧
    (show_sequence_entries [1, 1, 1] 3).getD 0 [] =
      Effect.sleep 50 ::
        indicate_button (SIMON_BUTTONS ([1, 1, 1].getD 0 0)) (cueDuration 3) :=
  ⟨by decide, C2_uniform_duration.1 [1, 1, 1] 3 0 (by decide)⟩

/-- C3 counterexample: a continuously held increase key (every poll reads
16384) across two loop iterations yields level 3, not the 2 that a single
edge-triggered press event would produce: the level does cycle repeatedly
while the key is held. -/
theorem C3_counterexample :
    choose_skill_level [16384, 16384, 16384, 16384, 32768] = some 3 ∧
    (3 : Nat) ≠ 2 := by
  decide

/-- C3 (amended): the increase key is level-triggered, rate-limited only by
the debounce sleep: each loop iteration whose if-read equals 16384
increments the level once, so n such iterations from the default yield the
n-fold wrap-around increment of 1, in particular two held iterations give
level 3. -/
theorem C3_level_triggered :
    (∀ n : Nat,
        choose_skill_level
            ((List.replicate n [16384, 16384]).flatten ++ [32768]) =
          some (wrapInc^[n] 1)) ∧
    choose_skill_level ((List.replicate 2 [16384, 16384]).flatten ++ [32768]) =
      some 3 := by
  constructor
  · intro n
    exact chooseLoop_press_iters 16384 16384 (by decide) rfl n 1
  · decide

/-- C4 counterexample: play_tone with an absent frequency is not a pure
1.5 s block; its trace enables the oscillator at duty 1000 (before setting
the frequency to None), contradicting "producing no sound, without enabling
the oscillator". -/
theorem C4_counterexample :
    ¬ (play_tone none 1500 = [Effect.sleep 1500]) ∧
    Effect.duty 1000 ∈ play_tone none 1500 := by
  decide

/-- C4 (amended): the silent path for an absent frequency is implemented in
indicate_button, not play_tone: when a button's frequency is None,
indicate_button sleeps for the duration and issues no buzzer command at all
(no duty change, no frequency write). -/
theorem C4_silent_path :
    ∀ (button : ButtonDefinition) (duration : Nat), button.freq = none →
      Effect.sleep duration ∈ indicate_button button duration ∧
      (∀ v, Effect.duty v ∉ indicate_button button duration) ∧
      (∀ f, Effect.setFreq f ∉ indicate_button button duration) := by
  intro button duration h
  refine ⟨?_, ?_, ?_⟩
  · simp [indicate_button, h]
  · intro v
    simp [indicate_button, h]
  · intro f
    simp [indicate_button, h]

/-- C4 witness: the silent path at a concrete all-silent button. -/
theorem C4_silent_path_witness :
    (⟨[], [], 0, 0, 0, none⟩ : ButtonDefinition).freq = none ∧
    Effect.sleep 100 ∈
      indicate_button (⟨[], [], 0, 0, 0, none⟩ : ButtonDefinition) 100 :=
  ⟨rfl, (C4_silent_path ⟨[], [], 0, 0, 0, none⟩ 100 rfl).1⟩

/-- C5: in every reachable state of the main loop the current step never
exceeds the sequence length plus one; a flawless round increments the step
by exactly one, and the Won transition fires exactly when the incremented
step exceeds the sequence length; with a 3-element sequence the steps
advance 1, 2, 3 and then Won fires. -/
theorem C5_step_invariant :
    (∀ (len : Nat) (ph : GamePhase), Reachable len ph →
        ∀ s : Nat, ph = GamePhase.playing s → s ≤ len + 1) ∧
    (∀ len s : Nat, advance len s = GamePhase.won ↔ len < s + 1) ∧
    (∀ len s s2 : Nat, advance len s = GamePhase.playing s2 → s2 = s + 1) ∧
    advance 3 1 = GamePhase.playing 2 ∧ advance 3 2 = GamePhase.playing 3 ∧
    advance 3 3 = GamePhase.won := by
  refine ⟨?_, ?_, ?_, by decide, by decide, by decide⟩
  · intro len ph h
    induction h with
    | init =>
      intro s hs
      cases hs
      omega
    | @flawless s0 hpr ihr =>
      intro s hs
      simp only [advance] at hs
      split at hs
      · cases hs
      · cases hs
        rename_i hguard
        omega
    | @loss s0 hpr ihr =>
      intro s hs
      cases hs
  · intro len s
    simp only [advance]
    split
    · rename_i hguard
      simpa using hguard
    · rename_i hguard
      constructor
      · intro h
        cases h
      · intro h
        omega
  · intro len s s2 h
    simp only [advance] at h
    split at h
    · cases h
    · cases h
      rfl

/-- C5 witness: the invariant at the initial state of a length-3 game. -/
theorem C5_step_invariant_witness :
    (1 : Nat) ≤ 3 + 1 :=
  C5_step_invariant.1 3 (GamePhase.playing 1) Reachable.init 1 rfl

/-- C6: the guess timeout is 3.0 s; if every poll inside the window yields
no recognized press the polling loop produces no guess, a missing guess
fails the mismatch test exactly like a wrong button does, so both outcomes
take the same Lost transition. -/
theorem C6_timeout_is_loss :
    GUESS_TIMEOUT = 3000 ∧
    (∀ polls : List Nat, (∀ m ∈ polls, pressed_button m = none) →
        poll_guess polls = none) ∧
    (∀ expected : Nat, guess_lost none expected = true) ∧
    (∀ guess expected : Nat,
        SIMON_BUTTONS guess ≠ SIMON_BUTTONS expected →
        guess_lost (some guess) expected = guess_lost none expected) := by
  refine ⟨rfl, ?_, ?_, ?_⟩
  · intro polls h
    simp only [poll_guess, List.findSome?_eq_none_iff]
    exact h
  · intro expected
    simp [guess_lost]
  · intro guess expected h
    simp [guess_lost, h]

/-- C6 witness: a window of unrecognized polls yields no guess, which the
mismatch test maps to a loss. -/
theorem C6_timeout_is_loss_witness :
    poll_guess [0, 3, 0] = none ∧ guess_lost none 1 = true :=
  ⟨C6_timeout_is_loss.2.1 [0, 3, 0] (by decide),
   C6_timeout_is_loss.2.2.1 1⟩

/-- C7: get_button_press recognizes a press exactly when the bitmask is a
single mapped bit; a returned button always owns a pad whose single bit
equals the mask, and a failed recognition performs no side effects. -/
theorem C7_press_recognition :
    ∀ mask : Nat,
      ((∃ p, p < 16 ∧ mask = 2 ^ p) ↔ ((get_button_press mask).1).isSome) ∧
      (∀ id : Nat, (get_button_press mask).1 = some id →
          ∃ p ∈ (SIMON_BUTTONS id).pads, mask = 2 ^ p) ∧
      ((get_button_press mask).1 = none → (get_button_press mask).2 = []) := by
  intro mask
  refine ⟨⟨?_, ?_⟩, ?_, ?_⟩
  · rintro ⟨p, hp, rfl⟩
    have hall : ∀ q, q < 16 → ((get_button_press (2 ^ q)).1).isSome := by
      decide
    exact hall p hp
  · intro hsome
    by_contra hno
    push_neg at hno
    have hnone : pressed_button mask = none :=
      pressed_button_eq_none_of_not_single mask hno
    simp [get_button_press, hnone] at hsome
  · intro id hid
    have hid2 : buttonIds.find? (matches_button mask) = some id := hid
    have hmb : matches_button mask id = true := List.find?_some hid2
    rw [matches_button] at hmb
    obtain ⟨p, hpmem, hpm⟩ := List.any_eq_true.mp hmb
    refine ⟨p, hpmem, ?_⟩
    simpa [single_pad_mask] using hpm
  · intro h
    have hnone : pressed_button mask = none := h
    simp [get_button_press, press_effects, hnone]

/-- C7 witness: mask 32 (single bit of pad 5) is recognized; mask 3 (two
keys) is not and produces no effects. -/
theorem C7_press_recognition_witness :
    ((get_button_press 32).1).isSome ∧ (get_button_press 3).2 = [] :=
  ⟨(C7_press_recognition 32).1.mp ⟨5, by decide, by decide⟩,
   (C7_press_recognition 3).2.2 (by decide)⟩

/-- C8: for every difficulty level in 1..4 and every state of the seeded
generator, new_game produces a sequence of length SEQUENCE_LENGTH[level]
(8, 14, 20, 31 respectively) whose elements all lie in 1..4. -/
theorem C8_sequence_generation :
    (∀ level : Nat, level ∈ ([1, 2, 3, 4] : List Nat) → ∀ rand : Nat → Nat,
        (new_game level rand).length = SEQUENCE_LENGTH level ∧
        ∀ x ∈ new_game level rand, 1 ≤ x ∧ x ≤ 4) ∧
    SEQUENCE_LENGTH 1 = 8 ∧ SEQUENCE_LENGTH 2 = 14 ∧
    SEQUENCE_LENGTH 3 = 20 ∧ SEQUENCE_LENGTH 4 = 31 := by
  refine ⟨?_, rfl, rfl, rfl, rfl⟩
  intro level _ rand
  constructor
  · simp [new_game]
  · intro x hx
    simp only [new_game, List.mem_map, List.mem_range] at hx
    obtain ⟨i, _, hix⟩ := hx
    rw [randint] at hix
    have hmod : rand i % (4 - 1 + 1) < 4 := Nat.mod_lt _ (by norm_num)
    omega

/-- C8 witness: level 2 with a concrete generator stream gives the table
length. -/
theorem C8_sequence_generation_witness :
    (new_game 2 (fun i => i + 7)).length = SEQUENCE_LENGTH 2 :=
  (C8_sequence_generation.1 2 (by decide) (fun i => i + 7)).1

/-- C9: the selector starts at level 1; each recognized increase press
advances the level by the wrap-around increment (five presses from default
pass through 2, 3, 4, 1 and end at 2), and a start read at any point
returns the current level unchanged, in particular level 1 when start is
pressed first. -/
theorem C9_selector :
    (∀ n : Nat,
        choose_skill_level
            ((List.replicate n [0, 16384]).flatten ++ [32768]) =
          some (wrapInc^[n] 1)) ∧
    choose_skill_level ((List.replicate 5 [0, 16384]).flatten ++ [32768]) =
      some 2 ∧
    [wrapInc^[1] 1, wrapInc^[2] 1, wrapInc^[3] 1, wrapInc^[4] 1,
      wrapInc^[5] 1] = [2, 3, 4, 1, 2] ∧
    (∀ (level : Nat) (rest : List Nat),
        chooseLoop level (32768 :: rest) = some level) ∧
    choose_skill_level [32768] = some 1 := by
  refine ⟨?_, by decide, by decide, ?_, by decide⟩
  · intro n
    exact chooseLoop_press_iters 0 16384 (by decide) rfl n 1
  · intro level rest
    rw [chooseLoop.eq_def]
    simp

end SimonSays
